import Mathlib

/-!
Verification of the sheepify backend's sleep-to-reward engine.

The definitions below are a shallow embedding of the Python services in
`backend/app/services` (`wool_service.py`, `sleep_service.py`,
`sheep_service.py`) together with the ORM rows they read and write
(`backend/app/models`).  Conventions of the embedding:

* Python floats are modelled as rationals (`ℚ`); `int()` truncation is
  `pytrunc`; `statistics.mean` on an empty list fails, as in Python.
* Timestamps (`datetime`) are whole seconds since the epoch; `.hour` and
  `.minute` are derived exactly as `datetime.utcfromtimestamp` derives them.
* The database session is an explicit `DB` value; a service call returns its
  result (or a typed failure, standing for a raised exception) together with
  the database state after the call.  A raised exception leaves the state
  unchanged, because in the source every `raise` happens before any mutation
  of the ORM objects.
* `random.random()` and `datetime.utcnow()` are passed in as explicit
  `draw` / `now` arguments.
* Row ids (uuid strings in the source) are opaque numeric identifiers drawn
  from a `next_id` counter.
-/

namespace Sheepify

/-- Typed failures of the engine.  The first three are the classes of
`app/core/exceptions.py`; `valueError` and `statisticsError` stand for the
Python builtins `ValueError` and `statistics.StatisticsError` that the
services can also raise.  `conflictError` is modelled from the spec: the
spec's §7 error taxonomy names a `ConflictError` for invalid state
transitions, but no such exception class exists anywhere in the source. -/
inductive Err
  | validationError
  | insufficientWoolError
  | notFoundException
  | valueError
  | statisticsError
  | conflictError
deriving DecidableEq, Repr

/-- A UTC timestamp in whole seconds since the epoch. -/
structure DateTime where
  sec : ℤ
deriving DecidableEq, Repr

/-- Hour of day, as Python's `datetime.hour` computes it for a UTC epoch
timestamp. -/
def DateTime.hour (t : DateTime) : ℤ := Int.emod (Int.ediv t.sec 3600) 24

/-- Minute within the hour, as Python's `datetime.minute`. -/
def DateTime.minute (t : DateTime) : ℤ := Int.emod (Int.ediv t.sec 60) 60

/-- Python `int(x)` on a float: truncation toward zero. -/
def pytrunc (q : ℚ) : ℤ := if q < 0 then -⌊-q⌋ else ⌊q⌋

/-- Row of the `users` table; only the columns the engine touches.
`wool_balance` has column default 0. -/
structure User where
  id : ℕ
  wool_balance : ℤ
deriving DecidableEq, Repr

/-- Row of the `wool_transactions` table (the ledger). -/
structure WoolTransaction where
  user_id : ℕ
  amount : ℤ
  balance_after : ℤ
  source : String
  reference_id : Option ℕ
deriving DecidableEq, Repr

/-- Session lifecycle status (`status` column of `sleep_sessions`). -/
inductive Status
  | active
  | completed
  | cancelled
deriving DecidableEq, Repr

/-- Row of the `sleep_sessions` table.  Nullable columns are `Option`;
`reward_wool` has column default 0 and `status` default `active`. -/
structure SleepSession where
  id : ℕ
  user_id : ℕ
  start_time : DateTime
  end_time : Option DateTime
  duration_hours : Option ℚ
  quality_score : Option ℚ
  reward_wool : ℤ
  new_sheep_awarded : Option ℕ
  status : Status
deriving DecidableEq, Repr

/-- Row of the `sheep` table; only the columns the reward path touches. -/
structure Sheep where
  id : ℕ
  user_id : ℕ
  sheep_type_id : String
  custom_name : Option String
deriving DecidableEq, Repr

/-- The database state seen by the services. -/
structure DB where
  users : List User
  sessions : List SleepSession
  transactions : List WoolTransaction
  sheep : List Sheep
  next_id : ℕ
deriving DecidableEq, Repr

/-- `db.query(User).filter(User.id == user_id).first()`. -/
def DB.findUser (db : DB) (user_id : ℕ) : Option User :=
  db.users.find? (fun u => decide (u.id = user_id))

/-- Assignment to `user.wool_balance` followed by commit: the row with the
given id now carries the new balance. -/
def DB.setBalance (db : DB) (user_id : ℕ) (new_balance : ℤ) : DB :=
  { db with
    users := db.users.map
      (fun u => if u.id = user_id then { u with wool_balance := new_balance } else u) }

/-- `db.add(transaction)`: the ledger is append-only. -/
def DB.addTransaction (db : DB) (t : WoolTransaction) : DB :=
  { db with transactions := db.transactions ++ [t] }

/-- `WoolService.add_wool` (wool_service.py:9-36): credit `amount` to the
user's balance and log a ledger entry with `delta = +amount`. -/
def add_wool (db : DB) (user_id : ℕ) (amount : ℤ) (source : String)
    (reference_id : Option ℕ) : Except Err ℤ × DB :=
  match db.findUser user_id with
  | none => (.error .valueError, db)
  | some user =>
    let new_balance := user.wool_balance + amount
    let db := db.setBalance user_id new_balance
    let db := db.addTransaction
      { user_id := user_id, amount := amount, balance_after := new_balance,
        source := source, reference_id := reference_id }
    (.ok new_balance, db)

/-- `WoolService.spend_wool` (wool_service.py:38-69): debit `amount` after a
sufficiency check; on shortfall raise `InsufficientWoolError` (the spec's
`InsufficientFundsError`) before touching any state. -/
def spend_wool (db : DB) (user_id : ℕ) (amount : ℤ) (purpose : String)
    (item_id : ℕ) : Except Err Bool × DB :=
  match db.findUser user_id with
  | none => (.error .valueError, db)
  | some user =>
    if user.wool_balance < amount then
      (.error .insufficientWoolError, db)
    else
      let new_balance := user.wool_balance - amount
      let db := db.setBalance user_id new_balance
      let db := db.addTransaction
        { user_id := user_id, amount := -amount, balance_after := new_balance,
          source := purpose, reference_id := some item_id }
      (.ok true, db)

/-- Rewriting the balance of every row with the given id commutes with the
first-match lookup on that id. -/
theorem find?_map_balance (l : List User) (uid : ℕ) (nb : ℤ) :
    (l.map (fun u => if u.id = uid then { u with wool_balance := nb } else u)).find?
        (fun u => decide (u.id = uid))
      = (l.find? (fun u => decide (u.id = uid))).map
          (fun u => { u with wool_balance := nb }) := by
  induction l with
  | nil => rfl
  | cons a l ih =>
    by_cases h : a.id = uid
    · simp [List.find?_cons, h]
    · simpa [List.find?_cons, h] using ih

/-- Updating the matching user row commutes with the later lookup. -/
theorem findUser_setBalance (db : DB) (uid : ℕ) (nb : ℤ) :
    (db.setBalance uid nb).findUser uid
      = (db.findUser uid).map (fun u => { u with wool_balance := nb }) :=
  find?_map_balance db.users uid nb

/-- C1: `spend_wool` (the spec's Debit) with insufficient balance fails with
`InsufficientWoolError` — the exception the spec calls
`InsufficientFundsError` — and leaves the balance and the ledger unchanged;
with sufficient balance it appends a ledger entry with `delta = -amount` and
decreases the balance by the amount. -/
theorem spend_wool_debit_spec (db : DB) (uid : ℕ) (amount : ℤ) (purpose : String)
    (item : ℕ) (u : User) (hu : db.findUser uid = some u) :
    (u.wool_balance < amount →
      spend_wool db uid amount purpose item = (.error .insufficientWoolError, db)) ∧
    (amount ≤ u.wool_balance →
      ∃ db', spend_wool db uid amount purpose item = (.ok true, db') ∧
        db'.transactions = db.transactions ++
          [{ user_id := uid, amount := -amount,
             balance_after := u.wool_balance - amount,
             source := purpose, reference_id := some item }] ∧
        db'.findUser uid = some { u with wool_balance := u.wool_balance - amount }) := by
  constructor
  · intro hlt
    simp [spend_wool, hu, hlt]
  · intro hle
    refine ⟨(db.setBalance uid (u.wool_balance - amount)).addTransaction
      { user_id := uid, amount := -amount, balance_after := u.wool_balance - amount,
        source := purpose, reference_id := some item }, ?_, ?_, ?_⟩
    · simp [spend_wool, hu, not_lt.mpr hle]
    · rfl
    · have h1 : ∀ (d : DB) (t : WoolTransaction),
          (d.addTransaction t).findUser uid = d.findUser uid := fun d t => rfl
      rw [h1, findUser_setBalance, hu]
      rfl

/-- A freshly registered single-user database: one account with the given
balance, empty ledger, no sessions, no sheep. -/
def initDB (uid : ℕ) (balance : ℤ) : DB :=
  { users := [{ id := uid, wool_balance := balance }], sessions := [],
    transactions := [], sheep := [], next_id := 0 }

/-- Witness for C1 at a concrete account: balance 5, failed debit of 9,
successful debit of 3. -/
theorem spend_wool_debit_spec_witness :
    spend_wool (initDB 1 5) 1 9 "shop_purchase" 7
      = (.error .insufficientWoolError, initDB 1 5) ∧
    ∃ db', spend_wool (initDB 1 5) 1 3 "shop_purchase" 7 = (.ok true, db') ∧
      db'.transactions = (initDB 1 5).transactions ++
        [{ user_id := 1, amount := -3, balance_after := 2,
           source := "shop_purchase", reference_id := some 7 }] ∧
      db'.findUser 1 = some { id := 1, wool_balance := 2 } :=
  ⟨(spend_wool_debit_spec (initDB 1 5) 1 9 "shop_purchase" 7
      { id := 1, wool_balance := 5 } rfl).1 (by decide),
   (spend_wool_debit_spec (initDB 1 5) 1 3 "shop_purchase" 7
      { id := 1, wool_balance := 5 } rfl).2 (by decide)⟩

/-- One client-issued ledger operation. -/
inductive WoolOp
  | credit (amount : ℤ) (source : String) (reference_id : Option ℕ)
  | debit (amount : ℤ) (purpose : String) (item_id : ℕ)
deriving DecidableEq, Repr

/-- The amount carried by an operation. -/
def WoolOp.amount : WoolOp → ℤ
  | .credit a _ _ => a
  | .debit a _ _ => a

/-- Run one ledger operation, keeping the database that results whether or
not the call raised (a raise leaves the database unchanged). -/
def applyOp (db : DB) (uid : ℕ) : WoolOp → DB
  | .credit a s r => (add_wool db uid a s r).2
  | .debit a p i => (spend_wool db uid a p i).2

/-- Run a sequence of ledger operations in order. -/
def applyOps (db : DB) (uid : ℕ) (ops : List WoolOp) : DB :=
  ops.foldl (fun d op => applyOp d uid op) db

/-- The spec's chain condition: each entry's `balance_after` equals the
previous entry's `balance_after` plus its `delta`, the first entry chaining
from `prev`. -/
def chainFrom (prev : ℤ) : List WoolTransaction → Prop
  | [] => True
  | t :: ts => t.balance_after = prev + t.amount ∧ chainFrom t.balance_after ts

/-- Sum of the `delta`s recorded in a ledger. -/
def sumAmounts (ts : List WoolTransaction) : ℤ :=
  (ts.map (fun t => t.amount)).sum

/-- Appending an entry whose `balance_after` continues the running total
preserves the chain condition. -/
theorem chainFrom_append (p : ℤ) (ts : List WoolTransaction) (t : WoolTransaction)
    (h : chainFrom p ts) (ht : t.balance_after = p + sumAmounts ts + t.amount) :
    chainFrom p (ts ++ [t]) := by
  induction ts generalizing p with
  | nil => simpa [chainFrom, sumAmounts] using ht
  | cons t' ts ih =>
    obtain ⟨h1, h2⟩ := h
    refine ⟨h1, ih _ h2 ?_⟩
    rw [ht, h1]
    simp [sumAmounts]
    ring

/-- The running invariant linking an account row to its ledger: the balance
is the starting balance plus the sum of the deltas, the ledger chains from
the starting balance, and no recorded running balance is negative. -/
def LedgerInv (uid : ℕ) (b0 : ℤ) (db : DB) : Prop :=
  ∃ u, db.findUser uid = some u ∧
    0 ≤ u.wool_balance ∧
    u.wool_balance = b0 + sumAmounts db.transactions ∧
    chainFrom b0 db.transactions ∧
    ∀ t ∈ db.transactions, 0 ≤ t.balance_after

/-- A single credit or debit of positive amount preserves the ledger
invariant. -/
theorem applyOp_inv (uid : ℕ) (b0 : ℤ) (db : DB) (op : WoolOp)
    (hop : 0 < op.amount) (h : LedgerInv uid b0 db) :
    LedgerInv uid b0 (applyOp db uid op) := by
  obtain ⟨u, hu, hnn, hbal, hchain, hpos⟩ := h
  have hfind : ∀ (d : DB) (t : WoolTransaction) (nb : ℤ),
      ((d.setBalance uid nb).addTransaction t).findUser uid
        = (d.findUser uid).map (fun v => { v with wool_balance := nb }) :=
    fun d t nb => findUser_setBalance d uid nb
  cases op with
  | credit a s r =>
    have hop' : 0 < a := hop
    have hstep : applyOp db uid (.credit a s r)
        = (db.setBalance uid (u.wool_balance + a)).addTransaction
            { user_id := uid, amount := a, balance_after := u.wool_balance + a,
              source := s, reference_id := r } := by
      show (add_wool db uid a s r).2 = _
      simp [add_wool, hu]
    rw [hstep]
    refine ⟨{ u with wool_balance := u.wool_balance + a }, ?_, ?_, ?_, ?_, ?_⟩
    · rw [hfind, hu]
      rfl
    · show (0:ℤ) ≤ u.wool_balance + a
      linarith
    · show u.wool_balance + a = b0 + sumAmounts (db.transactions ++ [_])
      simp only [sumAmounts, List.map_append, List.sum_append, List.map_cons,
        List.map_nil, List.sum_cons, List.sum_nil] at hbal ⊢
      linarith
    · show chainFrom b0 (db.transactions ++ [_])
      refine chainFrom_append b0 db.transactions _ hchain ?_
      show u.wool_balance + a = b0 + sumAmounts db.transactions + a
      linarith
    · show ∀ t ∈ db.transactions ++ [_], 0 ≤ t.balance_after
      intro t htmem
      rcases List.mem_append.mp htmem with hold | hnew
      · exact hpos t hold
      · rcases List.mem_singleton.mp hnew with rfl
        show (0:ℤ) ≤ u.wool_balance + a
        linarith
  | debit a p i =>
    have hop' : 0 < a := hop
    by_cases hlt : u.wool_balance < a
    · have hstep : applyOp db uid (.debit a p i) = db := by
        show (spend_wool db uid a p i).2 = db
        simp [spend_wool, hu, hlt]
      rw [hstep]
      exact ⟨u, hu, hnn, hbal, hchain, hpos⟩
    · have hle : a ≤ u.wool_balance := not_lt.mp hlt
      have hstep : applyOp db uid (.debit a p i)
          = (db.setBalance uid (u.wool_balance - a)).addTransaction
              { user_id := uid, amount := -a, balance_after := u.wool_balance - a,
                source := p, reference_id := some i } := by
        show (spend_wool db uid a p i).2 = _
        simp [spend_wool, hu, hlt]
      rw [hstep]
      refine ⟨{ u with wool_balance := u.wool_balance - a }, ?_, ?_, ?_, ?_, ?_⟩
      · rw [hfind, hu]
        rfl
      · show (0:ℤ) ≤ u.wool_balance - a
        linarith
      · show u.wool_balance - a = b0 + sumAmounts (db.transactions ++ [_])
        simp only [sumAmounts, List.map_append, List.sum_append, List.map_cons,
          List.map_nil, List.sum_cons, List.sum_nil] at hbal ⊢
        linarith
      · show chainFrom b0 (db.transactions ++ [_])
        refine chainFrom_append b0 db.transactions _ hchain ?_
        show u.wool_balance - a = b0 + sumAmounts db.transactions + -a
        linarith
      · show ∀ t ∈ db.transactions ++ [_], 0 ≤ t.balance_after
        intro t htmem
        rcases List.mem_append.mp htmem with hold | hnew
        · exact hpos t hold
        · rcases List.mem_singleton.mp hnew with rfl
          show (0:ℤ) ≤ u.wool_balance - a
          linarith

/-- A whole sequence of positive credits and debits preserves the ledger
invariant. -/
theorem applyOps_inv (uid : ℕ) (b0 : ℤ) (ops : List WoolOp) (db : DB)
    (hpos : ∀ op ∈ ops, 0 < op.amount) (h : LedgerInv uid b0 db) :
    LedgerInv uid b0 (applyOps db uid ops) := by
  induction ops generalizing db with
  | nil => exact h
  | cons op ops ih =>
    exact ih (applyOp db uid op)
      (fun o ho => hpos o (List.mem_cons_of_mem _ ho))
      (applyOp_inv uid b0 db op (hpos op (List.mem_cons_self _ _)) h)

/-- C2 (amended): for every sequence of `add_wool`/`spend_wool` operations
with positive amounts, starting from a fresh account with non-negative
balance `b0`: every appended ledger entry's `balance_after` equals the
previous entry's `balance_after` plus its delta (the first chaining from
`b0`), the account balance equals `b0` plus the sum of all deltas, and no
`balance_after` is ever negative. -/
theorem ledger_invariant_spec (uid : ℕ) (b0 : ℤ) (ops : List WoolOp)
    (hb0 : 0 ≤ b0) (hpos : ∀ op ∈ ops, 0 < op.amount) :
    ∃ u, (applyOps (initDB uid b0) uid ops).findUser uid = some u ∧
      chainFrom b0 (applyOps (initDB uid b0) uid ops).transactions ∧
      u.wool_balance = b0 + sumAmounts (applyOps (initDB uid b0) uid ops).transactions ∧
      (∀ t ∈ (applyOps (initDB uid b0) uid ops).transactions, 0 ≤ t.balance_after) ∧
      0 ≤ u.wool_balance := by
  have hinit : LedgerInv uid b0 (initDB uid b0) := by
    refine ⟨{ id := uid, wool_balance := b0 }, ?_, hb0, ?_, trivial, ?_⟩
    · simp [initDB, DB.findUser]
    · simp [initDB, sumAmounts]
    · simp [initDB]
  obtain ⟨u, h1, h2, h3, h4, h5⟩ := applyOps_inv uid b0 ops (initDB uid b0) hpos hinit
  exact ⟨u, h1, h4, h3, h5, h2⟩

/-- Counterexample to C2 as stated: starting from balance 5, a single credit
of 3 leaves the balance at 8, but the sum of all ledger deltas is 3. -/
theorem ledger_sum_counterexample :
    (applyOps (initDB 1 5) 1 [.credit 3 "generation" none]).findUser 1
        = some { id := 1, wool_balance := 8 } ∧
    sumAmounts (applyOps (initDB 1 5) 1 [.credit 3 "generation" none]).transactions = 3 ∧
    (8 : ℤ) ≠ 3 := by
  refine ⟨?_, ?_, by decide⟩ <;> rfl

/-- Witness for the amended C2 at a concrete run: balance 5, one credit of 3
followed by one debit of 2. -/
theorem ledger_invariant_spec_witness :
    (0 : ℤ) ≤ 5 ∧
    (∀ op ∈ [WoolOp.credit 3 "generation" none, WoolOp.debit 2 "shop_purchase" 4],
      0 < op.amount) ∧
    ∃ u, (applyOps (initDB 1 5) 1
            [WoolOp.credit 3 "generation" none, WoolOp.debit 2 "shop_purchase" 4]).findUser 1
          = some u ∧
      chainFrom 5 (applyOps (initDB 1 5) 1
            [WoolOp.credit 3 "generation" none, WoolOp.debit 2 "shop_purchase" 4]).transactions ∧
      u.wool_balance = 5 + sumAmounts (applyOps (initDB 1 5) 1
            [WoolOp.credit 3 "generation" none, WoolOp.debit 2 "shop_purchase" 4]).transactions ∧
      (∀ t ∈ (applyOps (initDB 1 5) 1
            [WoolOp.credit 3 "generation" none, WoolOp.debit 2 "shop_purchase" 4]).transactions,
        0 ≤ t.balance_after) ∧
      0 ≤ u.wool_balance :=
  ⟨by decide, by decide,
    ledger_invariant_spec 1 5
      [WoolOp.credit 3 "generation" none, WoolOp.debit 2 "shop_purchase" 4]
      (by decide) (by decide)⟩

/-- `SheepService.create_sheep` (sheep_service.py:21-36): insert a new sheep
row for the user and return it. -/
def create_sheep (db : DB) (user_id : ℕ) (sheep_type_id : String)
    (custom_name : Option String) : Sheep × DB :=
  let s : Sheep := { id := db.next_id, user_id := user_id,
                     sheep_type_id := sheep_type_id, custom_name := custom_name }
  (s, { db with sheep := db.sheep ++ [s], next_id := db.next_id + 1 })

/-- `SheepService.determine_sheep_reward` (sheep_service.py:75-96).  `draw`
is the value returned by `random.random()`, in `[0,1)`. -/
def determine_sheep_reward (db : DB) (user_id : ℕ) (sleep_quality : ℚ)
    (draw : ℚ) : Option Sheep × DB :=
  if 85 ≤ sleep_quality ∧ draw < 1/10 then
    let sheep_type :=
      if 95 ≤ sleep_quality then "golden"
      else if 90 ≤ sleep_quality then "cotswold"
      else if 85 ≤ sleep_quality then "suffolk"
      else "merino"
    let sd := create_sheep db user_id sheep_type none
    (some sd.1, sd.2)
  else (none, db)

/-- The `active_session` lookup of `start_session`: first session of the
user in state `active`. -/
def DB.findActive (db : DB) (user_id : ℕ) : Option SleepSession :=
  db.sessions.find? (fun s => decide (s.user_id = user_id ∧ s.status = Status.active))

/-- `SleepService.start_session` (sleep_service.py:13-41).  The duplicate
active-session check raises `ValidationError` in the source.  The
`planned_wake_time` parameter of the source is never read and is omitted. -/
def start_session (db : DB) (user_id : ℕ) (start_time : DateTime) :
    Except Err SleepSession × DB :=
  match db.findActive user_id with
  | some _ => (.error .validationError, db)
  | none =>
    let session : SleepSession :=
      { id := db.next_id, user_id := user_id, start_time := start_time,
        end_time := none, duration_hours := none, quality_score := none,
        reward_wool := 0, new_sheep_awarded := none, status := .active }
    (.ok session,
     { db with sessions := db.sessions ++ [session], next_id := db.next_id + 1 })

/-- Fractional hour-of-day used by consistency scoring:
`s.start_time.hour + s.start_time.minute / 60`. -/
def hourFrac (t : DateTime) : ℚ := (t.hour : ℚ) + (t.minute : ℚ) / 60

/-- Mean of a list of rationals (zero on the empty list). -/
def listMean (xs : List ℚ) : ℚ := xs.sum / (xs.length : ℚ)

/-- Sample variance, the square of `statistics.stdev`. -/
def sampleVariance (xs : List ℚ) : ℚ :=
  (xs.map (fun x => (x - listMean xs) ^ 2)).sum / ((xs.length : ℚ) - 1)

/-- The user's completed sessions whose `start_time` lies in the trailing
seven days (`datetime.utcnow() - timedelta(days=7)`), the common query of
`calculate_consistency_score` and `get_weekly_stats`.  The source orders the
consistency query by `start_time`; the order is irrelevant to every use
(count, standard deviation, sums), so the stored order is kept. -/
def recentCompleted (db : DB) (user_id : ℕ) (now : DateTime) : List SleepSession :=
  db.sessions.filter (fun s => decide (s.user_id = user_id ∧
    now.sec - 604800 ≤ s.start_time.sec ∧ s.status = Status.completed))

/-- `SleepService.calculate_consistency_score` (sleep_service.py:164-201).
The source compares `statistics.stdev start_hours` with 0.5, 1.0 and 2.0;
since a standard deviation and those bounds are non-negative, each
comparison `stdev < c` is embedded as `variance < c²`, which avoids square
roots.  The `current_start_time` parameter is never read by the source body
and is kept only for signature fidelity.  The `try/except` around `stdev`
is dead in the source (the guard `len < 3` already excludes the lists
`stdev` raises on), so the embedding is total. -/
def calculate_consistency_score (db : DB) (user_id : ℕ)
    (current_start_time : DateTime) (now : DateTime) : ℚ :=
  let recent_sessions := recentCompleted db user_id now
  if recent_sessions.length < 3 then 1/2
  else
    let start_hours := recent_sessions.map (fun s => hourFrac s.start_time)
    let var := sampleVariance start_hours
    if var < 1/4 then 1
    else if var < 1 then 3/4
    else if var < 4 then 1/2
    else 1/4

/-- Duration component of the quality score (sleep_service.py:126-137). -/
def duration_score (duration_hours : ℚ) : ℚ :=
  if 8 ≤ duration_hours ∧ duration_hours ≤ 10 then 40
  else if 7 ≤ duration_hours ∧ duration_hours < 8 then 30
  else if 6 ≤ duration_hours ∧ duration_hours < 7 then 20
  else if 10 < duration_hours then 25
  else 10

/-- Timing component of the quality score (sleep_service.py:141-151), keyed
by the hour of day of `start_time`. -/
def timing_score (start_time : DateTime) : ℚ :=
  let hour_of_day := start_time.hour
  if 21 ≤ hour_of_day ∧ hour_of_day ≤ 23 then 30
  else if (20 ≤ hour_of_day ∧ hour_of_day < 21) ∨ hour_of_day = 0 then 25
  else if 1 ≤ hour_of_day ∧ hour_of_day ≤ 3 then 15
  else 10

/-- `SleepService.calculate_quality_score` (sleep_service.py:119-162):
duration points plus timing points plus `consistency ratio × 30`, capped at
100. -/
def calculate_quality_score (db : DB) (duration_hours : ℚ)
    (start_time : DateTime) (user_id : ℕ) (now : DateTime) : ℚ :=
  let base_score := duration_score duration_hours + timing_score start_time
    + calculate_consistency_score db user_id start_time now * 30
  min base_score 100

/-- The reward dictionary returned by `calculate_reward`. -/
structure Reward where
  wool : ℤ
  new_sheep : Option Sheep
deriving DecidableEq, Repr

/-- `SleepService.calculate_reward` (sleep_service.py:203-236): wool is
`int(int(duration_hours * 50) * (quality_score / 100))`, credited through
`add_wool`; a sheep roll happens only when `quality_score ≥ 70`. -/
def calculate_reward (db : DB) (user_id : ℕ) (duration_hours : ℚ)
    (quality_score : ℚ) (draw : ℚ) : Except Err Reward × DB :=
  let base_wool := pytrunc (duration_hours * 50)
  let quality_multiplier := quality_score / 100
  let wool_reward := pytrunc ((base_wool : ℚ) * quality_multiplier)
  match add_wool db user_id wool_reward "sleep_reward" none with
  | (.error e, db') => (.error e, db')
  | (.ok _, db') =>
    let ns :=
      if 70 ≤ quality_score then determine_sheep_reward db' user_id quality_score draw
      else (none, db')
    (.ok { wool := wool_reward, new_sheep := ns.1 }, ns.2)

/-- Commit of a mutated session row: the stored row with the same id is
replaced by the updated value. -/
def DB.updateSession (db : DB) (s : SleepSession) : DB :=
  { db with sessions := db.sessions.map (fun t => if t.id = s.id then s else t) }

/-- The dictionary returned by `complete_session`. -/
structure CompleteResult where
  message : Option String
  session : SleepSession
  quality_score : ℚ
  reward : Option Reward
deriving DecidableEq, Repr

/-- The update-and-return tail of `complete_session`
(sleep_service.py:95-117): write end time, duration, score, reward wool and
`completed` status onto the session row, record an awarded sheep's id, and
return the result dictionary. -/
def finishSession (db : DB) (session : SleepSession) (end_time : DateTime)
    (duration_hours : ℚ) (quality_score : ℚ) (reward : Option Reward) :
    Except Err CompleteResult × DB :=
  let session1 := { session with
    end_time := some end_time,
    duration_hours := some duration_hours,
    quality_score := some quality_score,
    reward_wool := match reward with | some r => r.wool | none => 0,
    status := Status.completed }
  let session2 :=
    match reward with
    | some r =>
      match r.new_sheep with
      | some sh => { session1 with new_sheep_awarded := some sh.id }
      | none => session1
    | none => session1
  (.ok { message := none, session := session2, quality_score := quality_score,
         reward := reward }, db.updateSession session2)

/-- The scoring path of `complete_session` (sleep_service.py:82-117): compute
the quality score, compute the reward when the score is at least 50, then
persist.  `duration_hours` is the already-clamped duration. -/
def completeScored (db : DB) (session : SleepSession) (end_time : DateTime)
    (duration_hours : ℚ) (now : DateTime) (draw : ℚ) :
    Except Err CompleteResult × DB :=
  let quality_score :=
    calculate_quality_score db duration_hours session.start_time session.user_id now
  if 50 ≤ quality_score then
    match calculate_reward db session.user_id duration_hours quality_score draw with
    | (.error e, db') => (.error e, db')
    | (.ok reward, db') =>
      finishSession db' session end_time duration_hours quality_score (some reward)
  else
    finishSession db session end_time duration_hours quality_score none

/-- The `session` lookup of `complete_session`: first session matching id
and user id. -/
def DB.findSession (db : DB) (session_id user_id : ℕ) : Option SleepSession :=
  db.sessions.find? (fun s => decide (s.id = session_id ∧ s.user_id = user_id))

/-- `SleepService.complete_session` (sleep_service.py:43-117).  The
anti-cheat block caps `duration_hours` at 16 and returns early, without
scoring, when the duration is under one hour; the short-session early return
writes only `status`, `end_time` and `duration_hours` onto the row. -/
def complete_session (db : DB) (session_id user_id : ℕ) (end_time : DateTime)
    (now : DateTime) (draw : ℚ) : Except Err CompleteResult × DB :=
  match db.findSession session_id user_id with
  | none => (.error .validationError, db)
  | some session =>
    if session.status ≠ Status.active then (.error .validationError, db)
    else
      let duration_seconds : ℚ := ((end_time.sec - session.start_time.sec : ℤ) : ℚ)
      let duration_hours := duration_seconds / 3600
      if 16 < duration_hours then
        completeScored db session end_time 16 now draw
      else if duration_hours < 1 then
        let session1 := { session with
          status := Status.completed,
          end_time := some end_time,
          duration_hours := some duration_hours }
        (.ok { message := some "Sleep session too short", session := session1,
               quality_score := 0, reward := none }, db.updateSession session1)
      else
        completeScored db session end_time duration_hours now draw

/-- Python truthiness filter on an optional number: `None` and `0` are
falsy, everything else passes. -/
def truthyQ : Option ℚ → Option ℚ
  | none => none
  | some q => if q = 0 then none else some q

/-- `statistics.mean`, which raises `StatisticsError` on an empty list. -/
def pymean (xs : List ℚ) : Except Err ℚ :=
  if xs.length = 0 then .error .statisticsError
  else .ok (xs.sum / (xs.length : ℚ))

/-- Python `max(xs, key=f)` on a nonempty list: the first element attaining
the maximal key. -/
def pymaxBy (f : SleepSession → ℚ) (x : SleepSession)
    (xs : List SleepSession) : SleepSession :=
  xs.foldl (fun best y => if f best < f y then y else best) x

/-- Python `round(x)` to an integer: round half to even. -/
def roundHalfEven (q : ℚ) : ℤ :=
  if q - ⌊q⌋ < 1/2 then ⌊q⌋
  else if 1/2 < q - ⌊q⌋ then ⌊q⌋ + 1
  else if 2 ∣ ⌊q⌋ then ⌊q⌋ else ⌊q⌋ + 1

/-- Python `round(x, 2)`: round half to even at two decimal places. -/
def round2 (q : ℚ) : ℚ := (roundHalfEven (q * 100) : ℚ) / 100

/-- The dictionary returned by `get_weekly_stats`. -/
structure WeeklyStats where
  total_sessions : ℕ
  total_hours : ℚ
  average_quality : ℚ
  total_wool_earned : ℤ
  best_session_date : Option DateTime
deriving DecidableEq, Repr

/-- `SleepService.get_weekly_stats` (sleep_service.py:254-284).  Note the
truthiness filters of the source: `total_hours` sums over sessions whose
`duration_hours` is truthy, and `average_quality` takes `statistics.mean`
over the quality scores that are truthy — which raises `StatisticsError`
when no completed session of the window has a truthy score. -/
def get_weekly_stats (db : DB) (user_id : ℕ) (now : DateTime) :
    Except Err WeeklyStats :=
  match recentCompleted db user_id now with
  | [] => .ok { total_sessions := 0, total_hours := 0, average_quality := 0,
                total_wool_earned := 0, best_session_date := none }
  | s0 :: rest =>
    let sessions := s0 :: rest
    let total_hours := (sessions.filterMap (fun s => truthyQ s.duration_hours)).sum
    match pymean (sessions.filterMap (fun s => truthyQ s.quality_score)) with
    | .error e => .error e
    | .ok avg_quality =>
      let total_wool := (sessions.map (fun s => s.reward_wool)).sum
      let best_session := pymaxBy (fun s => (truthyQ s.quality_score).getD 0) s0 rest
      .ok { total_sessions := sessions.length,
            total_hours := round2 total_hours,
            average_quality := round2 avg_quality,
            total_wool_earned := total_wool,
            best_session_date := some best_session.start_time }

/-- C5: for every duration, start time, history and clock, each quality
component is non-negative and bounded — duration ≤ 40, timing ≤ 30,
consistency ≤ 30 — and the total quality score lies in [0, 100]. -/
theorem quality_score_bounds (db : DB) (d : ℚ) (t : DateTime) (uid : ℕ)
    (now : DateTime) :
    0 ≤ duration_score d ∧ duration_score d ≤ 40 ∧
    0 ≤ timing_score t ∧ timing_score t ≤ 30 ∧
    0 ≤ calculate_consistency_score db uid t now * 30 ∧
    calculate_consistency_score db uid t now * 30 ≤ 30 ∧
    0 ≤ calculate_quality_score db d t uid now ∧
    calculate_quality_score db d t uid now ≤ 100 := by
  have hd : 0 ≤ duration_score d ∧ duration_score d ≤ 40 := by
    simp only [duration_score]
    split_ifs <;> norm_num
  have ht : 0 ≤ timing_score t ∧ timing_score t ≤ 30 := by
    simp only [timing_score]
    split_ifs <;> norm_num
  have hc : 1/4 ≤ calculate_consistency_score db uid t now ∧
      calculate_consistency_score db uid t now ≤ 1 := by
    simp only [calculate_consistency_score]
    split_ifs <;> norm_num
  refine ⟨hd.1, hd.2, ht.1, ht.2, by linarith [hc.1], by linarith [hc.2], ?_, ?_⟩
  · simp only [calculate_quality_score]
    rw [le_min_iff]
    constructor
    · linarith [hd.1, ht.1, hc.1]
    · norm_num
  · simp only [calculate_quality_score]
    exact min_le_right _ _

/-- C6: `determine_sheep_reward` mints a sheep exactly when the quality is
at least 85 and the draw is below 0.10, and a minted sheep's type follows
the 95/90/85 tier thresholds; in particular the `merino` branch is dead. -/
theorem determine_sheep_reward_spec (db : DB) (uid : ℕ) (q draw : ℚ) :
    ((determine_sheep_reward db uid q draw).1.isSome ↔ (85 ≤ q ∧ draw < 1/10)) ∧
    ∀ s, (determine_sheep_reward db uid q draw).1 = some s →
      s.sheep_type_id
          = (if 95 ≤ q then "golden" else if 90 ≤ q then "cotswold" else "suffolk") ∧
      s.sheep_type_id ≠ "merino" := by
  by_cases h : 85 ≤ q ∧ draw < 1/10
  · have hstep : determine_sheep_reward db uid q draw
        = (some
            { id := db.next_id,
              user_id := uid,
              sheep_type_id := (if 95 ≤ q then "golden"
                else if 90 ≤ q then "cotswold"
                else if 85 ≤ q then "suffolk" else "merino"),
              custom_name := none },
           (create_sheep db uid (if 95 ≤ q then "golden"
              else if 90 ≤ q then "cotswold"
              else if 85 ≤ q then "suffolk" else "merino") none).2) := by
      rw [determine_sheep_reward, if_pos h]
      rfl
    rw [hstep]
    constructor
    · exact iff_of_true (by simp) h
    · intro s hs
      have hinj := Option.some.inj hs
      subst hinj
      constructor
      · show (if 95 ≤ q then "golden"
            else if 90 ≤ q then "cotswold"
            else if 85 ≤ q then "suffolk" else "merino") = _
        by_cases h95 : 95 ≤ q
        · simp [h95]
        · by_cases h90 : 90 ≤ q
          · simp [h95, h90]
          · simp [h95, h90, h.1]
      · show (if 95 ≤ q then "golden"
            else if 90 ≤ q then "cotswold"
            else if 85 ≤ q then "suffolk" else "merino") ≠ "merino"
        split_ifs with h95 h90 h85
        · decide
        · decide
        · decide
        · exact absurd h.1 h85
  · have hstep : determine_sheep_reward db uid q draw = (none, db) := by
      rw [determine_sheep_reward, if_neg h]
    rw [hstep]
    constructor
    · exact iff_of_false (by simp) h
    · intro s hs
      exact absurd hs (by simp)

/-- Witness instantiating C6 at quality 92 and draw 1/20 (a mint in the
cotswold tier). -/
theorem determine_sheep_reward_spec_witness :
    (((determine_sheep_reward (initDB 1 0) 1 92 (1/20)).1.isSome
        ↔ ((85:ℚ) ≤ 92 ∧ (1/20:ℚ) < 1/10)) ∧
      ∀ s, (determine_sheep_reward (initDB 1 0) 1 92 (1/20)).1 = some s →
        s.sheep_type_id = (if (95:ℚ) ≤ 92 then "golden"
            else if (90:ℚ) ≤ 92 then "cotswold" else "suffolk") ∧
        s.sheep_type_id ≠ "merino") :=
  determine_sheep_reward_spec (initDB 1 0) 1 92 (1/20)

/-- Truncation agrees with the floor on non-negative arguments. -/
theorem pytrunc_eq_floor (q : ℚ) (h : 0 ≤ q) : pytrunc q = ⌊q⌋ := by
  simp [pytrunc, not_lt.mpr h]

/-- C7: for duration ≥ 1 and quality ≥ 50, the wool reward computed by
`calculate_reward` is `⌊⌊duration · 50⌋ · (quality / 100)⌋`. -/
theorem calculate_reward_formula (db : DB) (uid : ℕ) (d q draw : ℚ) (u : User)
    (hu : db.findUser uid = some u) (hd : 1 ≤ d) (hq : 50 ≤ q) :
    ∃ r db', calculate_reward db uid d q draw = (.ok r, db') ∧
      r.wool = ⌊(⌊d * 50⌋ : ℚ) * (q / 100)⌋ := by
  have h50 : (0:ℚ) ≤ d * 50 := by nlinarith
  have hb : pytrunc (d * 50) = ⌊d * 50⌋ := pytrunc_eq_floor _ h50
  have hbase : (0:ℚ) ≤ ((pytrunc (d * 50) : ℤ) : ℚ) := by
    rw [hb]
    exact_mod_cast Int.floor_nonneg.mpr h50
  have hw : pytrunc ((pytrunc (d * 50) : ℚ) * (q / 100))
      = ⌊((pytrunc (d * 50) : ℤ) : ℚ) * (q / 100)⌋ :=
    pytrunc_eq_floor _ (mul_nonneg hbase (by linarith))
  have hadd := (add_wool db uid
    (pytrunc ((pytrunc (d * 50) : ℚ) * (q / 100))) "sleep_reward" none)
  have hok : (add_wool db uid
      (pytrunc ((pytrunc (d * 50) : ℚ) * (q / 100))) "sleep_reward" none).1.isOk := by
    simp [add_wool, hu, Except.isOk, Except.toBool]
  simp only [calculate_reward]
  rcases hcall : add_wool db uid
      (pytrunc ((pytrunc (d * 50) : ℚ) * (q / 100))) "sleep_reward" none with ⟨res, db2⟩
  cases res with
  | error e =>
    rw [hcall] at hok
    simp [Except.isOk, Except.toBool] at hok
  | ok nb =>
    refine ⟨_, _, rfl, ?_⟩
    show pytrunc ((pytrunc (d * 50) : ℚ) * (q / 100)) = _
    rw [hw, hb]

/-- Witness for C7: 9 hours at quality 85 yields 382 wool. -/
theorem calculate_reward_formula_witness :
    (initDB 1 0).findUser 1 = some { id := 1, wool_balance := 0 } ∧
    (1:ℚ) ≤ 9 ∧ (50:ℚ) ≤ 85 ∧
    ∃ r db', calculate_reward (initDB 1 0) 1 9 85 (1/2) = (.ok r, db') ∧
      r.wool = ⌊((⌊(9:ℚ) * 50⌋ : ℤ) : ℚ) * (85 / 100)⌋ ∧ r.wool = 382 := by
  refine ⟨rfl, by norm_num, by norm_num, ?_⟩
  obtain ⟨r, db', h1, h2⟩ := calculate_reward_formula (initDB 1 0) 1 9 85 (1/2)
    { id := 1, wool_balance := 0 } rfl (by norm_num) (by norm_num)
  refine ⟨r, db', h1, h2, ?_⟩
  rw [h2]
  norm_num

/-- C4 (amended): with an active session already present, `start_session`
fails — raising the code's `ValidationError`, not the spec taxonomy's
`ConflictError`, which has no counterpart in the source — and creates no
session; with no active session it creates a session in state Active. -/
theorem start_session_spec (db : DB) (uid : ℕ) (t : DateTime) :
    (∀ s0, db.findActive uid = some s0 →
      start_session db uid t = (.error .validationError, db)) ∧
    (db.findActive uid = none →
      ∃ s db', start_session db uid t = (.ok s, db') ∧
        s.status = .active ∧ s.user_id = uid ∧ s.start_time = t ∧
        db'.sessions = db.sessions ++ [s]) := by
  constructor
  · intro s0 h
    simp [start_session, h]
  · intro h
    have hstep : start_session db uid t
        = (.ok
            { id := db.next_id, user_id := uid, start_time := t,
              end_time := none, duration_hours := none, quality_score := none,
              reward_wool := 0, new_sheep_awarded := none, status := .active },
           { db with
             sessions := db.sessions ++
               [{ id := db.next_id, user_id := uid, start_time := t,
                  end_time := none, duration_hours := none, quality_score := none,
                  reward_wool := 0, new_sheep_awarded := none, status := .active }],
             next_id := db.next_id + 1 }) := by
      simp [start_session, h]
    exact ⟨_, _, hstep, rfl, rfl, rfl, rfl⟩

/-- An already-active session for user 1, started at 22:00 UTC. -/
def activeSession : SleepSession :=
  { id := 0, user_id := 1, start_time := ⟨79200⟩, end_time := none,
    duration_hours := none, quality_score := none, reward_wool := 0,
    new_sheep_awarded := none, status := .active }

/-- A database in which user 1 already has the active session above. -/
def dbActive : DB :=
  { users := [{ id := 1, wool_balance := 0 }], sessions := [activeSession],
    transactions := [], sheep := [], next_id := 2 }

/-- Counterexample to C4 as stated: on a duplicate active session the code
raises `ValidationError`, which is not the spec's `ConflictError`. -/
theorem start_session_conflict_counterexample :
    (start_session dbActive 1 ⟨0⟩).1 = .error .validationError ∧
    Err.validationError ≠ Err.conflictError :=
  ⟨rfl, by decide⟩

/-- Witness for the amended C4: both branches at concrete databases. -/
theorem start_session_spec_witness :
    start_session dbActive 1 ⟨0⟩ = (.error .validationError, dbActive) ∧
    ∃ s db', start_session (initDB 1 0) 1 ⟨79200⟩ = (.ok s, db') ∧
      s.status = .active ∧ s.user_id = 1 ∧ s.start_time = ⟨79200⟩ ∧
      db'.sessions = (initDB 1 0).sessions ++ [s] :=
  ⟨(start_session_spec dbActive 1 ⟨0⟩).1 activeSession rfl,
   (start_session_spec (initDB 1 0) 1 ⟨79200⟩).2 rfl⟩

/-- C3: completing an active session whose computed duration is under one
hour returns quality 0 and no reward, marks the row Completed with
`reward_wool` still 0, mints no sheep and writes no ledger entry, and the
outcome is the same for every clock value and every random draw — the
quality scorer and the reward calculator are never consulted.  (The short
branch of the source leaves the row's `quality_score` column unset; the
zero score is reported in the returned dictionary.) -/
theorem complete_short_session_spec (db : DB) (sid uid : ℕ)
    (end_time now : DateTime) (draw : ℚ) (s : SleepSession)
    (hfind : db.findSession sid uid = some s) (hact : s.status = .active)
    (hshort : ((end_time.sec - s.start_time.sec : ℤ) : ℚ) / 3600 < 1)
    (h0 : s.reward_wool = 0) :
    ∃ res db',
      complete_session db sid uid end_time now draw = (.ok res, db') ∧
      res.quality_score = 0 ∧
      res.reward = none ∧
      res.session.status = .completed ∧
      res.session.reward_wool = 0 ∧
      res.session.quality_score = s.quality_score ∧
      res.session.new_sheep_awarded = s.new_sheep_awarded ∧
      db'.transactions = db.transactions ∧
      db'.sheep = db.sheep ∧
      (∀ now' draw', complete_session db sid uid end_time now' draw'
          = complete_session db sid uid end_time now draw) := by
  have hd1 : ¬ (16 < ((end_time.sec - s.start_time.sec : ℤ) : ℚ) / 3600) := by
    intro hgt
    linarith
  have hstep : ∀ (now1 : DateTime) (draw1 : ℚ),
      complete_session db sid uid end_time now1 draw1
        = (.ok
            { message := some "Sleep session too short",
              session :=
                { s with
                  status := .completed,
                  end_time := some end_time,
                  duration_hours :=
                    some (((end_time.sec - s.start_time.sec : ℤ) : ℚ) / 3600) },
              quality_score := 0,
              reward := none },
           db.updateSession
             { s with
               status := .completed,
               end_time := some end_time,
               duration_hours :=
                 some (((end_time.sec - s.start_time.sec : ℤ) : ℚ) / 3600) }) := by
    intro now1 draw1
    rw [complete_session, hfind]
    simp only [hact, ne_eq, not_true_eq_false, if_false, if_neg hd1, if_pos hshort]
  refine ⟨_, _, hstep now draw, rfl, rfl, rfl, h0, rfl, rfl, rfl, rfl,
    fun now' draw' => (hstep now' draw').trans (hstep now draw).symm⟩

/-- Witness for C3: user 1's 22:00 session completed at 22:30, a 30-minute
sleep. -/
theorem complete_short_session_spec_witness :
    ∃ res db',
      complete_session dbActive 0 1 ⟨81000⟩ ⟨81000⟩ (1/2) = (.ok res, db') ∧
      res.quality_score = 0 ∧
      res.reward = none ∧
      res.session.status = .completed ∧
      res.session.reward_wool = 0 ∧
      res.session.quality_score = activeSession.quality_score ∧
      res.session.new_sheep_awarded = activeSession.new_sheep_awarded ∧
      db'.transactions = dbActive.transactions ∧
      db'.sheep = dbActive.sheep ∧
      (∀ now' draw', complete_session dbActive 0 1 ⟨81000⟩ now' draw'
          = complete_session dbActive 0 1 ⟨81000⟩ ⟨81000⟩ (1/2)) :=
  complete_short_session_spec dbActive 0 1 ⟨81000⟩ ⟨81000⟩ (1/2) activeSession
    rfl rfl (by norm_num [activeSession]) rfl

/-- Everything a completion run determines apart from the recorded wall
clock `end_time`: the persisted duration, quality score, reward wool and
awarded-sheep id, the returned score and reward, and the resulting ledger
and sheep tables. -/
def completionView (r : Except Err CompleteResult × DB) :
    Except Err (Option ℚ × Option ℚ × ℤ × Option ℕ × ℚ × Option Reward)
      × (List WoolTransaction × List Sheep) :=
  ( match r.1 with
    | .error e => .error e
    | .ok res => .ok (res.session.duration_hours, res.session.quality_score,
        res.session.reward_wool, res.session.new_sheep_awarded,
        res.quality_score, res.reward),
    (r.2.transactions, r.2.sheep) )

/-- The persisting tail of a completion does not feed `end_time` into
anything but the recorded `end_time` itself. -/
theorem completionView_finishSession (db : DB) (s : SleepSession)
    (e1 e2 : DateTime) (d q : ℚ) (r : Option Reward) :
    completionView (finishSession db s e1 d q r)
      = completionView (finishSession db s e2 d q r) := by
  cases r with
  | none => rfl
  | some rr =>
    cases rr with
    | mk wool ns => cases ns <;> rfl

/-- The scored completion path depends on `end_time` only through the
recorded `end_time`. -/
theorem completionView_completeScored (db : DB) (s : SleepSession)
    (e1 e2 : DateTime) (d : ℚ) (now : DateTime) (draw : ℚ) :
    completionView (completeScored db s e1 d now draw)
      = completionView (completeScored db s e2 d now draw) := by
  simp only [completeScored]
  by_cases hq : 50 ≤ calculate_quality_score db d s.start_time s.user_id now
  · rw [if_pos hq, if_pos hq]
    rcases hcall : calculate_reward db s.user_id d
        (calculate_quality_score db d s.start_time s.user_id now) draw with ⟨res, db2⟩
    cases res with
    | error e => rfl
    | ok rr => exact completionView_finishSession db2 s e1 e2 d _ (some rr)
  · rw [if_neg hq, if_neg hq]
    exact completionView_finishSession db s e1 e2 d _ none

/-- C9: completing an active session with computed duration 20 hours yields
the same persisted duration, quality score, reward wool, awarded sheep,
returned reward, ledger and sheep table as completing it with computed
duration 16 hours — only the recorded `end_time` differs (the 20-hour run
is clamped to 16 before scoring). -/
theorem complete_clamp_spec (db : DB) (sid uid : ℕ) (now : DateTime)
    (draw : ℚ) (s : SleepSession) (hfind : db.findSession sid uid = some s)
    (hact : s.status = .active) :
    completionView (complete_session db sid uid ⟨s.start_time.sec + 72000⟩ now draw)
      = completionView (complete_session db sid uid ⟨s.start_time.sec + 57600⟩ now draw) := by
  have ha20 : (s.start_time.sec + 72000 - s.start_time.sec : ℤ) = 72000 := by ring
  have ha16 : (s.start_time.sec + 57600 - s.start_time.sec : ℤ) = 57600 := by ring
  have h20 : (((⟨s.start_time.sec + 72000⟩ : DateTime).sec - s.start_time.sec : ℤ) : ℚ) / 3600
      = 20 := by
    show ((s.start_time.sec + 72000 - s.start_time.sec : ℤ) : ℚ) / 3600 = 20
    rw [ha20]
    norm_num
  have h16 : (((⟨s.start_time.sec + 57600⟩ : DateTime).sec - s.start_time.sec : ℤ) : ℚ) / 3600
      = 16 := by
    show ((s.start_time.sec + 57600 - s.start_time.sec : ℤ) : ℚ) / 3600 = 16
    rw [ha16]
    norm_num
  have e20step : complete_session db sid uid ⟨s.start_time.sec + 72000⟩ now draw
      = completeScored db s ⟨s.start_time.sec + 72000⟩ 16 now draw := by
    rw [complete_session, hfind]
    simp only [hact, ne_eq, not_true_eq_false, if_false]
    rw [h20, if_pos (by norm_num : (16:ℚ) < 20)]
  have e16step : complete_session db sid uid ⟨s.start_time.sec + 57600⟩ now draw
      = completeScored db s ⟨s.start_time.sec + 57600⟩ 16 now draw := by
    rw [complete_session, hfind]
    simp only [hact, ne_eq, not_true_eq_false, if_false]
    rw [h16, if_neg (by norm_num : ¬ (16:ℚ) < 16),
      if_neg (by norm_num : ¬ (16:ℚ) < 1)]
  rw [e20step, e16step]
  exact completionView_completeScored db s _ _ 16 now draw

/-- Witness for C9 on the concrete database with one active session. -/
theorem complete_clamp_spec_witness :
    completionView (complete_session dbActive 0 1
        ⟨activeSession.start_time.sec + 72000⟩ ⟨200000⟩ (1/2))
      = completionView (complete_session dbActive 0 1
        ⟨activeSession.start_time.sec + 57600⟩ ⟨200000⟩ (1/2)) :=
  complete_clamp_spec dbActive 0 1 ⟨200000⟩ (1/2) activeSession rfl rfl

/-- C8: completing user 1's active session (started at 79200, i.e. 22:00)
with an `end_time` of 72000 — two hours *before* the start — does not raise
`ValidationError`.  The code falls into the `duration_hours < 1`
short-session branch and persists the session as Completed with a negative
duration of −2 hours. -/
theorem complete_session_end_before_start :
    complete_session dbActive 0 1 ⟨72000⟩ ⟨72000⟩ 0
      = (.ok
          { message := some "Sleep session too short",
            session :=
              { activeSession with
                status := .completed,
                end_time := some ⟨72000⟩,
                duration_hours := some (-2) },
            quality_score := 0,
            reward := none },
         dbActive.updateSession
           { activeSession with
             status := .completed,
             end_time := some ⟨72000⟩,
             duration_hours := some (-2) }) := by
  have hd : (((⟨72000⟩ : DateTime).sec - activeSession.start_time.sec : ℤ) : ℚ) / 3600
      = -2 := by
    show (((72000 : ℤ) - 79200 : ℤ) : ℚ) / 3600 = -2
    norm_num
  rw [complete_session,
    show dbActive.findSession 0 1 = some activeSession from rfl]
  simp only [show activeSession.status = Status.active from rfl, ne_eq,
    not_true_eq_false, if_false]
  rw [hd, if_neg (by norm_num : ¬ (16:ℚ) < -2),
    if_pos (by norm_num : (-2:ℚ) < 1)]

/-- C10: whenever the account has at least one completed session in the
trailing seven days but none of them carries a truthy quality score (the
column is null — as the short-session branch persists it — or zero),
`get_weekly_stats` does not return a stats dictionary: the average-quality
computation takes the mean of an empty list and raises `StatisticsError`. -/
theorem get_weekly_stats_statistics_error (db : DB) (uid : ℕ) (now : DateTime)
    (hne : recentCompleted db uid now ≠ [])
    (hall : ∀ s ∈ recentCompleted db uid now, truthyQ s.quality_score = none) :
    get_weekly_stats db uid now = .error .statisticsError := by
  rw [get_weekly_stats]
  rcases hrc : recentCompleted db uid now with _ | ⟨s0, rest⟩
  · exact absurd hrc hne
  · have hfm : (s0 :: rest).filterMap (fun s => truthyQ s.quality_score) = [] := by
      rw [List.filterMap_eq_nil_iff]
      intro s hs
      exact hall s (hrc ▸ hs)
    simp only [hfm, pymean, List.length_nil]
    rfl

/-- The database state after user 1's only session of the week was closed by
the short-session branch: completed, half-hour duration, `quality_score`
never written. -/
def dbShort : DB :=
  { users := [{ id := 1, wool_balance := 0 }],
    sessions :=
      [{ id := 0,
         user_id := 1,
         start_time := ⟨79200⟩,
         end_time := some ⟨81000⟩,
         duration_hours := some (1/2),
         quality_score := none,
         reward_wool := 0,
         new_sheep_awarded := none,
         status := .completed }],
    transactions := [], sheep := [], next_id := 2 }

/-- Witness for C10: on `dbShort` the weekly window is nonempty, no session
has a truthy quality score, and the stats call raises `StatisticsError`. -/
theorem get_weekly_stats_statistics_error_witness :
    recentCompleted dbShort 1 ⟨81000⟩ ≠ [] ∧
    (∀ s ∈ recentCompleted dbShort 1 ⟨81000⟩, truthyQ s.quality_score = none) ∧
    get_weekly_stats dbShort 1 ⟨81000⟩ = .error .statisticsError :=
  ⟨by decide, by decide,
   get_weekly_stats_statistics_error dbShort 1 ⟨81000⟩ (by decide) (by decide)⟩

end Sheepify
